import Mathlib

/-!
Shallow embedding of the ClinicalAide STG OCR/RAG pipeline
(`stg-ocr-parse/rag_pipeline_builder.py` and
`stg-ocr-parse/medical_ocr_extractor.py`) together with theorems settling
the specification claims about it.

Python strings are modelled as lists of characters (`Str`), so slicing,
length and scanning coincide with list operations.  Regex-based scans are
translated operationally: each pattern of the source becomes an explicit
matcher with the same left-to-right, greedy/lazy backtracking semantics as
the Python `re` calls that use it.
-/

namespace ClinicalAide

/-- Text: a Python string as its list of characters. -/
abbrev Str := List Char

/-- The ASCII whitespace characters of the Python regex class backslash-s,
which are also exactly the ASCII characters removed by str.strip(). -/
def isPySpace (c : Char) : Bool :=
  c = ' ' || c = '\t' || c = '\n' || c = '\r' || c = '\x0b' || c = '\x0c'

/-- Python str.strip(): drop leading and trailing whitespace. -/
def pyStrip (s : Str) : Str :=
  ((s.dropWhile isPySpace).reverse.dropWhile isPySpace).reverse

/-- Python slicing s[:n]: the first n characters. -/
def pySlice (s : Str) (n : Nat) : Str := s.take n

/-- Worker for collapseWS: the flag records whether the previous
character was whitespace (so the current run already emitted its single
space). -/
def collapseWSGo (prevSpace : Bool) : Str → Str
  | [] => []
  | c :: rest =>
    if isPySpace c then
      if prevSpace then collapseWSGo true rest
      else ' ' :: collapseWSGo true rest
    else c :: collapseWSGo false rest

/-- Python re.sub applied with the pattern backslash-s-plus and replacement
" ": every maximal whitespace run becomes a single space. -/
def collapseWS (s : Str) : Str := collapseWSGo false s

/-- Case-insensitive character comparison (re.IGNORECASE, ASCII). -/
def ciEqc (a b : Char) : Bool := a.toLower = b.toLower

/-- Whether pat is a case-insensitive prefix of s. -/
def ciStarts : Str → Str → Bool
  | [], _ => true
  | _ :: _, [] => false
  | p :: ps, c :: cs => ciEqc p c && ciStarts ps cs

/-- Whether pat is a case-sensitive prefix of s. -/
def litStarts : Str → Str → Bool
  | [], _ => true
  | _ :: _, [] => false
  | p :: ps, c :: cs => (p = c : Bool) && litStarts ps cs

/-- Whether pat occurs as a case-sensitive substring of s (Python in). -/
def containsLit (pat : Str) : Str → Bool
  | [] => litStarts pat []
  | s@(_ :: rest) => litStarts pat s || containsLit pat rest

/-- Whether the two strings are case-insensitively equal. -/
def ciEqs : Str → Str → Bool
  | [], [] => true
  | p :: ps, c :: cs => ciEqc p c && ciEqs ps cs
  | _, _ => false

/-! ## Location resolver (rag_pipeline_builder.py)

Data model of the chapter/section structure the builder accumulates in
`self.chapters`: each chapter is a dict with number, title, start_page and
a list of sections; each section has a textual number, a title and a page.
-/

/-- A section entry as built by `_extract_chapters`. -/
structure TocSection where
  number : Str
  title : Str
  page : Nat
deriving DecidableEq, Repr

/-- A chapter entry as built by `_extract_chapters`. -/
structure TocChapter where
  number : Nat
  title : Str
  start_page : Nat
  sections : List TocSection
deriving DecidableEq, Repr

/-- One step of the chapter loop of `_find_chapter_section`: when
page_number is at or past the chapter start, overwrite chapter_num and run
the inner section loop (which overwrites section_num for every section
whose page is at or below page_number). -/
def fcsStep (page_number : Nat) (acc : Option Nat × Option Str)
    (chapter : TocChapter) : Option Nat × Option Str :=
  if chapter.start_page ≤ page_number then
    (some chapter.number,
     chapter.sections.foldl
       (fun sn s => if s.page ≤ page_number then some s.number else sn) acc.2)
  else acc

/-- RAGPipelineBuilder._find_chapter_section: scan all chapters in list
order, keeping the latest chapter whose start_page is at or below the
queried page, and (without any per-chapter reset) the latest section seen
so far whose page is at or below the queried page. -/
def find_chapter_section (chapters : List TocChapter) (page_number : Nat) :
    Option Nat × Option Str :=
  chapters.foldl (fcsStep page_number) (none, none)

/-- A fold that overwrites an optional accumulator at every element
satisfying cond computes the last satisfying element (or keeps the
initial value). -/
lemma foldl_overwrite {α β : Type} (cond : α → Prop) [DecidablePred cond]
    (f : α → β) :
    ∀ (l : List α) (i : Option β),
      l.foldl (fun acc x => if cond x then some (f x) else acc) i
        = ((l.filter (fun x => decide (cond x))).getLast?.map f).or i
  | [], i => by simp
  | x :: t, i => by
    by_cases h : cond x
    · rw [List.foldl_cons, if_pos h, foldl_overwrite cond f t,
        List.filter_cons_of_pos (by simpa using h),
        show x :: t.filter (fun x => decide (cond x))
          = [x] ++ t.filter (fun x => decide (cond x)) from rfl,
        List.getLast?_append]
      cases (t.filter (fun x => decide (cond x))).getLast? <;> simp
    · rw [List.foldl_cons, if_neg h, foldl_overwrite cond f t,
        List.filter_cons_of_neg (by simpa using h)]

/-- If no chapter of the list qualifies, the resolver fold is the
identity on the accumulator. -/
lemma fcs_foldl_of_none (p : Nat) :
    ∀ (chs : List TocChapter) (i : Option Nat × Option Str),
      (∀ c ∈ chs, ¬ c.start_page ≤ p) → chs.foldl (fcsStep p) i = i
  | [], _, _ => rfl
  | c :: t, i, h => by
    rw [List.foldl_cons, fcsStep, if_neg (h c (by simp))]
    exact fcs_foldl_of_none p t i fun d hd => h d (by simp [hd])

/-- The second component of the resolver fold is the last section, in
scan order over the sections of all qualifying chapters, whose page is at
or below the queried page. -/
lemma fcs_foldl_snd (p : Nat) :
    ∀ (chs : List TocChapter) (i : Option Nat × Option Str),
      (chs.foldl (fcsStep p) i).2
        = ((((chs.filter (fun c => c.start_page ≤ p)).flatMap
              TocChapter.sections).filter
                (fun s => s.page ≤ p)).getLast?.map TocSection.number).or i.2
  | [], i => by simp
  | c :: t, i => by
    by_cases h : c.start_page ≤ p
    · rw [List.foldl_cons, List.filter_cons_of_pos (by simpa using h)]
      rw [fcs_foldl_snd p t]
      show _ = (((c.sections ++
          (t.filter (fun c => c.start_page ≤ p)).flatMap TocChapter.sections).filter
            (fun s => s.page ≤ p)).getLast?.map TocSection.number).or i.2
      rw [List.filter_append, List.getLast?_append, fcsStep, if_pos h]
      rw [foldl_overwrite (fun s => s.page ≤ p) TocSection.number]
      cases ((((t.filter fun c => c.start_page ≤ p).flatMap
          TocChapter.sections).filter fun s => s.page ≤ p)).getLast? <;>
        cases ((c.sections.filter fun s => s.page ≤ p)).getLast? <;> simp
    · rw [List.foldl_cons, List.filter_cons_of_neg (by simpa using h),
        fcsStep, if_neg h, fcs_foldl_snd p t]

/-- C1: for a chapter list sorted by start_page (strictly, since
start_pages are unique by invariant), the resolver returns the chapter
with the greatest start_page at or below the queried page, returns none
when no chapter starts at or below it, and maps the start page of every
chapter to that chapter itself (boundary inclusive). -/
theorem C1_chapter_resolution (chs : List TocChapter) (p : Nat)
    (hs : chs.Pairwise (fun a b => a.start_page < b.start_page)) :
    ((∀ c ∈ chs, p < c.start_page) → (find_chapter_section chs p).1 = none)
    ∧ (∀ c ∈ chs, c.start_page ≤ p →
        (∀ d ∈ chs, d.start_page ≤ p → d.start_page ≤ c.start_page) →
        (find_chapter_section chs p).1 = some c.number)
    ∧ (∀ c ∈ chs, (find_chapter_section chs c.start_page).1 = some c.number) := by
  have key : ∀ (q : Nat), chs.Pairwise (fun a b => a.start_page < b.start_page) →
      ∀ c ∈ chs, c.start_page ≤ q →
      (∀ d ∈ chs, d.start_page ≤ q → d.start_page ≤ c.start_page) →
      (find_chapter_section chs q).1 = some c.number := by
    intro q hsort c hc hcq hmax
    obtain ⟨l1, l2, rfl⟩ := List.append_of_mem hc
    have h2 : ∀ d ∈ l2, ¬ d.start_page ≤ q := by
      intro d hd hdq
      have hlt : c.start_page < d.start_page := by
        have := (List.pairwise_append.mp hsort).2.1
        exact (List.pairwise_cons.mp this).1 d hd
      have := hmax d (by simp [hd]) hdq
      omega
    rw [find_chapter_section, List.foldl_append, List.foldl_cons]
    rw [fcs_foldl_of_none q l2 _ h2, fcsStep, if_pos hcq]
  refine ⟨?_, key p hs, ?_⟩
  · intro hnone
    rw [find_chapter_section, fcs_foldl_of_none p chs _
      (fun c hc h => absurd (hnone c hc) (by omega))]
  · intro c hc
    exact key c.start_page hs c hc le_rfl
      (fun d _ hd => hd)

/-- C1 witness: on the concrete sorted chapter list with starts 10 and
20, page 15 resolves to chapter 1, page 5 resolves to no chapter, and
the boundary page 20 resolves to chapter 2. -/
theorem C1_chapter_resolution_witness :
    (find_chapter_section
      [⟨1, [], 10, []⟩, ⟨2, [], 20, []⟩] 15).1 = some 1
    ∧ (find_chapter_section
      [⟨1, [], 10, []⟩, ⟨2, [], 20, []⟩] 5).1 = none
    ∧ (find_chapter_section
      [⟨1, [], 10, []⟩, ⟨2, [], 20, []⟩] 20).1 = some 2 := by
  refine ⟨?_, ?_, ?_⟩
  · exact (C1_chapter_resolution [⟨1, [], 10, []⟩, ⟨2, [], 20, []⟩] 15
      (by decide)).2.1 ⟨1, [], 10, []⟩ (by decide) (by decide) (by decide)
  · exact (C1_chapter_resolution [⟨1, [], 10, []⟩, ⟨2, [], 20, []⟩] 5
      (by decide)).1 (by decide)
  · exact (C1_chapter_resolution [⟨1, [], 10, []⟩, ⟨2, [], 20, []⟩] 20
      (by decide)).2.2 ⟨2, [], 20, []⟩ (by decide)

/-- C2 counterexample: with chapter 1 (start 10, one section on page 12)
and chapter 2 (start 20, no sections), page 25 resolves to chapter 2 but
the returned section is the one of chapter 1 — even though the resolved
chapter has no sections at all, contradicting the claim that the section
always belongs to the resolved chapter. -/
theorem C2_counterexample :
    (find_chapter_section
        [⟨1, [], 10, [⟨['1', '8', '6'], [], 12⟩]⟩, ⟨2, [], 20, []⟩] 25)
      = (some 2, some ['1', '8', '6'])
    ∧ (∀ c : TocChapter,
        c ∈ [⟨1, [], 10, [⟨['1', '8', '6'], [], 12⟩]⟩, (⟨2, [], 20, []⟩ : TocChapter)] →
        c.number = 2 → c.sections = []) := by
  constructor
  · rfl
  · decide

/-- C2 amended: the returned section_number is the number of the last
section, in scan order over the sections of all chapters whose
start_page is at or below the queried page, whose own page is at or below
the queried page (absent when there is no such section); it may belong to
an earlier chapter than the one the query resolves to. -/
theorem C2_amended_section_resolution (chs : List TocChapter) (p : Nat) :
    (find_chapter_section chs p).2
      = (((chs.filter (fun c => c.start_page ≤ p)).flatMap
            TocChapter.sections).filter
              (fun s => s.page ≤ p)).getLast?.map TocSection.number := by
  rw [find_chapter_section, fcs_foldl_snd]
  cases (((chs.filter fun c => c.start_page ≤ p).flatMap
      TocChapter.sections).filter fun s => s.page ≤ p).getLast? <;> simp

/-! ## Chunk builder (rag_pipeline_builder.py, _create_content_chunks)

Rows of the conditions_enhanced and medications_enhanced tables, in the
column order of the SELECT statements of `_create_content_chunks`.
Nullable text columns are modelled as plain strings with the empty string
for NULL, which is exactly how the Python truthiness checks treat them.
The JSON metadata payload of a chunk is not modelled (no claim mentions
it). -/

/-- A row of conditions_enhanced as read by `_create_content_chunks`. -/
structure ConditionRow where
  id : Nat
  name : Str
  chapter_number : Option Nat
  section_number : Option Str
  page_number : Nat
  clinical_features : Str
  investigations : Str
  treatment : Str
  reference_citation : Str
deriving DecidableEq, Repr

/-- A row of medications_enhanced as read by `_create_content_chunks`. -/
structure MedicationRow where
  id : Nat
  generic_name : Str
  chapter_number : Option Nat
  section_number : Option Str
  page_number : Nat
  strength : Str
  route : Str
  dosage_info : Str
  reference_citation : Str
deriving DecidableEq, Repr

/-- A content_chunks row as inserted by `_create_content_chunks`. -/
structure ContentChunk where
  content : Str
  chunk_type : Str
  source_id : Nat
  chapter_number : Option Nat
  chapter_title : Str
  section_number : Option Str
  page_number : Nat
  condition_name : Str
  reference_citation : Str
deriving DecidableEq, Repr

/-- Chapter-title lookup loop of `_create_content_chunks`: the title of
the first chapter whose number equals the (possibly absent) chapter
number of the row, else the empty string. -/
def lookupChapterTitle (chapters : List TocChapter) (num : Option Nat) : Str :=
  match chapters.find? (fun c => some c.number = num) with
  | some c => c.title
  | none => []

/-- Condition part of `_create_content_chunks`: one chunk per non-empty
field among treatment, clinical_features, investigations, in that order;
each content string is synthesized and sliced to its first 2000
characters; all three carry the reference citation of the row. -/
def create_condition_chunks (chapters : List TocChapter)
    (row : ConditionRow) : List ContentChunk :=
  let chapter_title := lookupChapterTitle chapters row.chapter_number
  (if row.treatment ≠ [] then
    [{ content := pySlice
         ("Treatment for ".data ++ row.name ++ ": ".data ++ row.treatment) 2000,
       chunk_type := "treatment".data,
       source_id := row.id,
       chapter_number := row.chapter_number,
       chapter_title := chapter_title,
       section_number := row.section_number,
       page_number := row.page_number,
       condition_name := row.name,
       reference_citation := row.reference_citation }]
   else [])
  ++ (if row.clinical_features ≠ [] then
    [{ content := pySlice
         ("Clinical features of ".data ++ row.name ++ ": ".data
           ++ row.clinical_features) 2000,
       chunk_type := "clinical_features".data,
       source_id := row.id,
       chapter_number := row.chapter_number,
       chapter_title := chapter_title,
       section_number := row.section_number,
       page_number := row.page_number,
       condition_name := row.name,
       reference_citation := row.reference_citation }]
   else [])
  ++ (if row.investigations ≠ [] then
    [{ content := pySlice
         ("Investigations for ".data ++ row.name ++ ": ".data
           ++ row.investigations) 2000,
       chunk_type := "investigations".data,
       source_id := row.id,
       chapter_number := row.chapter_number,
       chapter_title := chapter_title,
       section_number := row.section_number,
       page_number := row.page_number,
       condition_name := row.name,
       reference_citation := row.reference_citation }]
   else [])

/-- Medication part of `_create_content_chunks`: a single chunk whose
content is the comma-joined attribute list; the source inserts
chunk_content without any slicing (unlike the condition chunks, which use
chunk_content sliced to 2000 characters). -/
def create_medication_chunk (chapters : List TocChapter)
    (row : MedicationRow) : ContentChunk :=
  let chapter_title := lookupChapterTitle chapters row.chapter_number
  { content := "Medication: ".data ++ row.generic_name
      ++ (if row.strength ≠ [] then ", Strength: ".data ++ row.strength else [])
      ++ (if row.route ≠ [] then ", Route: ".data ++ row.route else [])
      ++ (if row.dosage_info ≠ [] then ", Dosage: ".data ++ row.dosage_info else []),
    chunk_type := "medication".data,
    source_id := row.id,
    chapter_number := row.chapter_number,
    chapter_title := chapter_title,
    section_number := row.section_number,
    page_number := row.page_number,
    condition_name := row.generic_name,
    reference_citation := row.reference_citation }

/-- C3: a condition row with non-empty treatment, clinical_features and
investigations yields exactly 3 chunks, with pairwise distinct
chunk_type values (treatment, clinical_features, investigations), all
carrying the same reference citation. -/
theorem C3_three_chunks (chapters : List TocChapter) (row : ConditionRow)
    (ht : row.treatment ≠ []) (hc : row.clinical_features ≠ [])
    (hi : row.investigations ≠ []) :
    (create_condition_chunks chapters row).length = 3
    ∧ ((create_condition_chunks chapters row).map
        ContentChunk.chunk_type).Pairwise (· ≠ ·)
    ∧ ((create_condition_chunks chapters row).map ContentChunk.chunk_type)
        = ["treatment".data, "clinical_features".data, "investigations".data]
    ∧ ∀ ch ∈ create_condition_chunks chapters row,
        ch.reference_citation = row.reference_citation := by
  simp only [create_condition_chunks, if_pos ht, if_pos hc, if_pos hi]
  refine ⟨by simp, ?_, by simp, ?_⟩
  · simp only [List.map_append, List.map_cons, List.map_nil]
    decide
  · intro ch hch
    simp only [List.mem_append, List.mem_singleton] at hch
    rcases hch with (rfl | rfl) | rfl <;> rfl

/-- C3 witness: a concrete condition row with all three fields populated
produces the three distinct chunks with a shared citation. -/
theorem C3_three_chunks_witness :
    (create_condition_chunks []
      ⟨1, "Malaria".data, some 1, none, 45, "fever".data, "film".data,
        "ACT".data, "Chapter 1, Page 45".data⟩).length = 3 :=
  (C3_three_chunks []
    ⟨1, "Malaria".data, some 1, none, 45, "fever".data, "film".data,
      "ACT".data, "Chapter 1, Page 45".data⟩
    (by decide) (by decide) (by decide)).1

/-- The medication chunk content for a row with empty strength, route
and dosage is just the label followed by the name. -/
lemma medication_content_no_attrs (chapters : List TocChapter)
    (id : Nat) (num : Option Nat) (sec : Option Str) (page : Nat) (name : Str) :
    (create_medication_chunk chapters
      ⟨id, name, num, sec, page, [], [], [], []⟩).content
      = "Medication: ".data ++ name := by
  simp [create_medication_chunk]

/-- C4 counterexample: a medication row whose generic name has 2500
characters produces a chunk whose content exceeds 2000 characters — the
medication chunk is inserted without the 2000-character slice. -/
theorem C4_counterexample :
    2000 < (create_medication_chunk []
      ⟨1, List.replicate 2500 'A', none, none, 7, [], [], [], []⟩).content.length := by
  rw [medication_content_no_attrs, List.length_append, List.length_replicate]
  have h12 : ("Medication: ".data).length = 12 := rfl
  omega

/-- C4 amended: every chunk built from a condition row has content of at
most 2000 characters, but the single medication chunk is not truncated:
its content always keeps the full generic name after the 12-character
"Medication: " label, so it can grow beyond 2000 characters. -/
theorem C4_amended_truncation (chapters : List TocChapter)
    (crow : ConditionRow) (mrow : MedicationRow) :
    (∀ ch ∈ create_condition_chunks chapters crow, ch.content.length ≤ 2000)
    ∧ 12 + mrow.generic_name.length
        ≤ (create_medication_chunk chapters mrow).content.length := by
  constructor
  · intro ch hch
    simp only [create_condition_chunks, List.mem_append] at hch
    rcases hch with (h | h) | h <;>
      (split at h <;> simp_all [pySlice, List.length_take])
  · have hle : ("Medication: ".data ++ mrow.generic_name).length
        ≤ (create_medication_chunk chapters mrow).content.length := by
      simp only [create_medication_chunk, List.length_append]
      omega
    have h12 : ("Medication: ".data).length = 12 := rfl
    rw [List.length_append, h12] at hle
    exact hle

/-- C4 amended witness: a concrete condition row and medication row
satisfying the bounds. -/
theorem C4_amended_truncation_witness :
    ∀ ch ∈ create_condition_chunks []
      ⟨1, "Malaria".data, none, none, 45, "fever".data, [], "ACT".data, []⟩,
      ch.content.length ≤ 2000 :=
  (C4_amended_truncation []
    ⟨1, "Malaria".data, none, none, 45, "fever".data, [], "ACT".data, []⟩
    ⟨1, "Paracetamol".data, none, none, 45, "500mg".data, [], [], []⟩).1

/-! ## Medication-name validator (medical_ocr_extractor.py) -/

/-- Stop words of `_is_valid_medication_name` ("common false
positives"). -/
def medicationStopWords : List Str :=
  ["Table".data, "Page".data, "Chapter".data, "Section".data,
   "And".data, "The".data, "For".data, "With".data]

/-- MedicalOCRExtractor._is_valid_medication_name: length between 3 and
30, first character an (ASCII) capital, and no stop word occurring as a
substring — the source checks containment (Python in), not equality.
The headD default is unreachable: the length guard keeps only non-empty
names. -/
def is_valid_medication_name (name : Str) : Bool :=
  if name.length < 3 || 30 < name.length then false
  else if !(name.headD ' ').isUpper then false
  else if medicationStopWords.any (fun w => containsLit w name) then false
  else true

/-- litStarts decides list prefixhood. -/
lemma litStarts_iff : ∀ (p s : Str), litStarts p s = true ↔ p <+: s
  | [], s => by simp [litStarts]
  | _ :: _, [] => by simp [litStarts]
  | a :: ps, c :: cs => by
    simp [litStarts, litStarts_iff ps cs, List.cons_prefix_cons]

/-- containsLit decides list infixhood (Python substring containment). -/
lemma containsLit_iff : ∀ (p s : Str), containsLit p s = true ↔ p <:+: s
  | p, [] => by
    cases p <;> simp [containsLit, litStarts]
  | p, c :: cs => by
    simp [containsLit, litStarts_iff, containsLit_iff p cs,
      List.infix_cons_iff]

/-- C8 counterexample: the name Androx starts with a capital, has length
6, and equals no configured stop word, yet the validator rejects it —
because it contains the stop word And as a substring. -/
theorem C8_counterexample :
    is_valid_medication_name "Androx".data = false
    ∧ 3 ≤ "Androx".data.length ∧ "Androx".data.length ≤ 30
    ∧ ("Androx".data.headD ' ').isUpper = true
    ∧ ∀ w ∈ medicationStopWords, "Androx".data ≠ w := by
  refine ⟨by decide, by decide, by decide, by decide, by decide⟩

/-- C8 amended: the validator accepts a candidate name if and only if it
has length 3 to 30, starts with an (ASCII) capital letter, and contains
none of the stop words as a substring — so a name merely containing a
stop word is rejected even when it equals none of them. -/
theorem C8_amended_validator (name : Str) :
    is_valid_medication_name name = true ↔
      (3 ≤ name.length ∧ name.length ≤ 30
        ∧ (∃ c t, name = c :: t ∧ c.isUpper = true)
        ∧ ∀ w ∈ medicationStopWords, ¬ w <:+: name) := by
  unfold is_valid_medication_name
  split_ifs with h1 h2 h3
  · simp only [Bool.or_eq_true, decide_eq_true_eq] at h1
    simp only [false_iff, not_and]
    intro hl hr
    omega
  · simp only [Bool.not_eq_true', Bool.not_eq_true] at h2
    simp only [false_iff, not_and]
    rintro _ _ ⟨c, t, rfl, hcu⟩ _
    simp [List.headD] at h2
    exact absurd hcu (by simp [h2])
  · simp only [List.any_eq_true] at h3
    obtain ⟨w, hw, hsub⟩ := h3
    simp only [false_iff, not_and]
    intro _ _ _ hnone
    exact absurd ((containsLit_iff w name).mp hsub) (hnone w hw)
  · simp only [Bool.or_eq_true, decide_eq_true_eq, not_or, Bool.not_eq_true,
      Bool.not_eq_false] at h1 h2
    simp only [List.any_eq_true, not_exists, not_and] at h3
    push_neg at h3
    have hne : name ≠ [] := by
      intro h; subst h; simp at h1
    obtain ⟨c, t, rfl⟩ : ∃ c t, name = c :: t := by
      cases name with
      | nil => exact absurd rfl hne
      | cons c t => exact ⟨c, t, rfl⟩
    simp only [true_iff]
    refine ⟨by omega, by omega, ⟨c, t, rfl, by simpa [List.headD] using h2⟩, ?_⟩
    intro w hw hsub
    exact absurd ((containsLit_iff w (c :: t)).mpr hsub) (by simpa using h3 w hw)

/-! ## Structure parser (rag_pipeline_builder.py, _extract_chapters) -/

/-- Python int() on a digit string. -/
def digitsToNat (ds : Str) : Nat :=
  ds.foldl (fun n c => n * 10 + (c.toNat - '0'.toNat)) 0

/-- The numbered-section regex of `_extract_chapters` applied with
re.match (anchored at the start of the line): one to three leading
digits, a dot, whitespace, a lazy run of non-dot characters (the title,
stripped), a dot leader, optional whitespace, and the page digits.  The
greedy/lazy backtracking of the Python engine collapses to: the maximal
leading digit run (failing when longer than 3, since the following
character must then be a digit, not a dot), maximal whitespace, the text
up to the first dot, the maximal dot run, maximal whitespace, then at
least one digit. -/
def parseSectionLine (line : Str) : Option TocSection :=
  let ds := line.takeWhile Char.isDigit
  if ds = [] then none
  else if 3 < ds.length then none
  else match line.drop ds.length with
    | '.' :: rest1 =>
      let ws := rest1.takeWhile isPySpace
      if ws = [] then none
      else
        let rest2 := rest1.drop ws.length
        let body := rest2.takeWhile (fun c => c ≠ '.')
        if body = [] then none
        else
          let rest3 := rest2.drop body.length
          let dots := rest3.takeWhile (fun c => c = '.')
          if dots = [] then none
          else
            let rest4 := rest3.drop dots.length
            let rest5 := rest4.drop (rest4.takeWhile isPySpace).length
            let pageDigits := rest5.takeWhile Char.isDigit
            if pageDigits = [] then none
            else some ⟨ds, pyStrip body, digitsToNat pageDigits⟩
    | _ => none

/-- Section-assignment loop of `_extract_chapters`: append the section to
the first chapter in parse order whose start_page is at or below the
section page, then break; when no chapter qualifies the section is
dropped. -/
def appendSectionFirstFit : List TocChapter → TocSection → List TocChapter
  | [], _ => []
  | c :: rest, s =>
    if c.start_page ≤ s.page then
      { c with sections := c.sections ++ [s] } :: rest
    else c :: appendSectionFirstFit rest s

/-- Per-line section handling of `_extract_chapters`: a line matching the
section pattern whose leading number exceeds the threshold 100 is
assigned to a chapter; any other line leaves the chapters unchanged. -/
def processSectionLine (chapters : List TocChapter) (line : Str) :
    List TocChapter :=
  match parseSectionLine line with
  | some s =>
    if 100 < digitsToNat s.number then appendSectionFirstFit chapters s
    else chapters
  | none => chapters

/-- C9: a matched section is appended to the first chapter in parse order
whose start_page is at or below the section page (all earlier chapters
and all later ones are left unchanged); and the concrete section line
"186. Severe Malaria..........112" parses to a section with page 112,
passes the threshold 186 greater than 100, and with chapters starting at
pages 100 and 150 it is assigned to the chapter starting at page 100. -/
theorem C9_section_assignment :
    (∀ (pre post : List TocChapter) (c : TocChapter) (s : TocSection),
      (∀ d ∈ pre, ¬ d.start_page ≤ s.page) → c.start_page ≤ s.page →
      appendSectionFirstFit (pre ++ c :: post) s
        = pre ++ { c with sections := c.sections ++ [s] } :: post)
    ∧ parseSectionLine "186. Severe Malaria..........112".data
        = some ⟨"186".data, "Severe Malaria".data, 112⟩
    ∧ 100 < digitsToNat "186".data
    ∧ processSectionLine [⟨1, [], 100, []⟩, ⟨2, [], 150, []⟩]
        "186. Severe Malaria..........112".data
        = [⟨1, [], 100, [⟨"186".data, "Severe Malaria".data, 112⟩]⟩,
           ⟨2, [], 150, []⟩] := by
  refine ⟨?_, by decide, by decide, by decide⟩
  intro pre post c s hpre hc
  induction pre with
  | nil => simp [appendSectionFirstFit, hc]
  | cons d rest ih =>
    have hd : ¬ d.start_page ≤ s.page := hpre d (by simp)
    simp only [List.cons_append, appendSectionFirstFit, if_neg hd, List.append_eq]
    rw [ih (fun e he => hpre e (by simp [he]))]

/-- C9 witness: the assignment rule applied at the concrete chapter list
of the scenario. -/
theorem C9_section_assignment_witness :
    appendSectionFirstFit [⟨1, [], 100, []⟩, ⟨2, [], 150, []⟩]
      ⟨"186".data, "Severe Malaria".data, 112⟩
      = [⟨1, [], 100, [⟨"186".data, "Severe Malaria".data, 112⟩]⟩,
         ⟨2, [], 150, []⟩] := by
  simpa using C9_section_assignment.1 [] [⟨2, [], 150, []⟩]
    ⟨1, [], 100, []⟩ ⟨"186".data, "Severe Malaria".data, 112⟩
    (by simp) (by norm_num)

/-! ## Section-content extraction (medical_ocr_extractor.py)

The extractor builds, for each keyword synonym, the regex
keyword + one-or-more of colon/whitespace + lazy capture + terminator,
searched with re.IGNORECASE and re.DOTALL.  The terminator alternation is
assembled by joining all 19 section keywords with the two-character
separator dollar-then-bar and appending bar-then-dollar, so every keyword
except the last (adverse outcomes) is anchored to the end of the text,
and a bare end-of-text alternative always remains.  Because the lazy
capture stops at the earliest position where the terminator matches, and
end-of-text always matches there, the search semantics collapse to: first
keyword occurrence followed by at least one separator character, maximal
separator run, capture up to the earliest terminator position. -/

/-- The characters of the regex class colon-or-whitespace that separates
a section keyword from its content. -/
def isSepChar (c : Char) : Bool := c = ':' || isPySpace c

/-- medical_sections of MedicalOCRExtractor, in dict insertion order. -/
def medical_sections : List (Str × List Str) :=
  [("clinical_features".data,
    ["clinical features".data, "signs and symptoms".data,
     "clinical presentation".data, "presenting features".data,
     "clinical manifestations".data]),
   ("investigations".data,
    ["investigations".data, "diagnostic tests".data,
     "laboratory tests".data, "diagnostic procedures".data,
     "tests required".data]),
   ("treatment".data,
    ["treatment".data, "management".data, "therapy".data,
     "drug therapy".data, "pharmacological treatment".data,
     "medication".data]),
   ("complications".data,
    ["complications".data, "sequelae".data, "adverse outcomes".data])]

/-- All 19 section keywords in order (Python sum of the dict values). -/
def sectionTermKeywords : List Str := medical_sections.flatMap (·.2)

/-- Terminator test of the generic section pattern at a suffix of the
text: one of the first 18 keywords occurring as the exact tail of the
text (keyword then the dollar anchor, which also matches just before one
trailing newline), the last keyword anywhere, or the bare dollar anchor
(end of text, possibly before one trailing newline). -/
def genTermAt (s : Str) : Bool :=
  (sectionTermKeywords.dropLast.any fun kw =>
    ciEqs s kw || ciEqs s (kw ++ ['\n']))
  || (match sectionTermKeywords.getLast? with
      | some kw => ciStarts kw s
      | none => false)
  || s = [] || s = ['\n']

/-- Terminator test of the hand-written clinical-features patterns of
`_extract_clinical_features`: the words investigations, treatment or
complications anywhere, or end of text. -/
def cfTermAt (s : Str) : Bool :=
  ciStarts "investigations".data s || ciStarts "treatment".data s
  || ciStarts "complications".data s || s = [] || s = ['\n']

/-- Match of keyword plus separator run at the start of a suffix: the
keyword case-insensitively, then at least one colon/whitespace character
(taken greedily); returns the text after the separator run. -/
def matchKwSep (kw : Str) (s : Str) : Option Str :=
  if ciStarts kw s then
    let r := s.drop kw.length
    let sep := r.takeWhile isSepChar
    if sep = [] then none else some (r.drop sep.length)
  else none

/-- The lazy capture: take characters until the terminator first matches
at the current suffix (it always matches at the end of the text). -/
def captureUntil (term : Str → Bool) : Str → Str
  | [] => []
  | s@(c :: rest) => if term s then [] else c :: captureUntil term rest

/-- re.search of one keyword pattern over the text: first position where
the keyword followed by a separator matches, then the lazy capture up to
the earliest terminator. -/
def findKwCapture (kw : Str) (term : Str → Bool) : Str → Option Str
  | [] => none
  | s@(_ :: rest) =>
    match matchKwSep kw s with
    | some afterSep => some (captureUntil term afterSep)
    | none => findKwCapture kw term rest

/-- MedicalOCRExtractor._extract_section_content: unknown section types
yield the empty string; otherwise the first keyword synonym whose pattern
matches yields its capture, stripped, whitespace-collapsed and sliced to
300 characters; no match yields the empty string. -/
def extract_section_content (text : Str) (section_type : Str) : Str :=
  match medical_sections.find? (fun kv => kv.1 = section_type) with
  | none => []
  | some kv =>
    match kv.2.findSome? (fun kw => findKwCapture kw genTermAt text) with
    | some raw => pySlice (collapseWS (pyStrip raw)) 300
    | none => []

/-- MedicalOCRExtractor._extract_clinical_features (its condition_name
parameter is unused by the source): three hand-written patterns with
keywords clinical features, signs and symptoms, presentation, terminator
investigations/treatment/complications-or-end, capture stripped,
whitespace-collapsed and sliced to 500 characters. -/
def extract_clinical_features (text : Str) : Str :=
  match (["clinical features".data, "signs and symptoms".data,
          "presentation".data].findSome?
      fun kw => findKwCapture kw cfTermAt text) with
  | some raw => pySlice (collapseWS (pyStrip raw)) 500
  | none => []

/-- Spec-side index of the earliest position (0 to length) at which the
terminator matches the remaining suffix; the length itself when the
terminator never matches earlier. -/
def firstStopIdx (term : Str → Bool) (s : Str) : Nat :=
  match (List.range (s.length + 1)).find? (fun i => term (s.drop i)) with
  | some i => i
  | none => s.length

/-- Spec-side reformulation of one keyword search, following the amended
claim: the first text position at which the keyword followed by a
separator matches, and from there the capture taken up to the earliest
terminator position. -/
def findKwCaptureSpec (kw : Str) (term : Str → Bool) (text : Str) :
    Option Str :=
  match (List.range text.length).find?
      (fun i => (matchKwSep kw (text.drop i)).isSome) with
  | some i => (matchKwSep kw (text.drop i)).map
      (fun after => after.take (firstStopIdx term after))
  | none => none

/-- When the terminator matches immediately, the earliest stop is 0. -/
lemma firstStopIdx_cons_true {term : Str → Bool} {c : Char} {rest : Str}
    (h : term (c :: rest) = true) :
    firstStopIdx term (c :: rest) = 0 := by
  unfold firstStopIdx
  rw [List.range_succ_eq_map, List.find?_cons]
  simp [h]

/-- When the terminator does not match immediately, the earliest stop
shifts by one. -/
lemma firstStopIdx_cons_false {term : Str → Bool} {c : Char} {rest : Str}
    (h : term (c :: rest) = false) :
    firstStopIdx term (c :: rest) = firstStopIdx term rest + 1 := by
  unfold firstStopIdx
  rw [List.range_succ_eq_map, List.find?_cons]
  simp only [List.drop_zero, h]
  rw [List.find?_map]
  have hcomp : ((fun i => term ((c :: rest).drop i)) ∘ Nat.succ)
      = (fun i => term (rest.drop i)) := by
    funext i; simp
  rw [hcomp]
  cases hf : (List.range (rest.length + 1)).find? (fun i => term (rest.drop i)) <;>
    simp [hf]

/-- The lazy capture equals the prefix up to the earliest terminator
position. -/
lemma captureUntil_eq_take (term : Str → Bool) :
    ∀ s : Str, captureUntil term s = s.take (firstStopIdx term s)
  | [] => by simp [captureUntil]
  | c :: rest => by
    by_cases h : term (c :: rest)
    · simp [captureUntil, h, firstStopIdx_cons_true h]
    · simp [captureUntil, h, firstStopIdx_cons_false (Bool.not_eq_true _ ▸ h),
        captureUntil_eq_take term rest]

/-- The operational keyword search agrees with the first-position,
earliest-stop spec formulation. -/
lemma findKwCapture_eq_spec (kw : Str) (term : Str → Bool) :
    ∀ text, findKwCapture kw term text = findKwCaptureSpec kw term text
  | [] => by simp [findKwCapture, findKwCaptureSpec]
  | c :: rest => by
    unfold findKwCapture findKwCaptureSpec
    simp only [List.length_cons]
    rw [List.range_succ_eq_map, List.find?_cons]
    cases hm : matchKwSep kw (c :: rest) with
    | some after =>
      simp only [List.drop_zero, hm, Option.isSome_some]
      simp [captureUntil_eq_take]
    | none =>
      simp only [List.drop_zero, hm, Option.isSome_none]
      rw [List.find?_map]
      have hcomp : ((fun i => (matchKwSep kw ((c :: rest).drop i)).isSome) ∘ Nat.succ)
          = (fun i => (matchKwSep kw (rest.drop i)).isSome) := by
        funext i; simp
      rw [hcomp]
      have hrec := findKwCapture_eq_spec kw term rest
      rw [findKwCaptureSpec] at hrec
      rw [hrec]
      cases hf : (List.range rest.length).find?
          (fun i => (matchKwSep kw (rest.drop i)).isSome) <;> simp [hf]

/-- C7 counterexample: for the text
"treatment: give fluids investigations: do x-ray" and section type
treatment, the capture does not stop at the interior keyword
investigations (the assembled terminator anchors it to the end of the
text), so the whole remainder is returned instead of "give fluids". -/
theorem C7_counterexample :
    extract_section_content
        "treatment: give fluids investigations: do x-ray".data "treatment".data
      = "give fluids investigations: do x-ray".data
    ∧ "give fluids investigations: do x-ray".data ≠ "give fluids".data := by
  exact ⟨by decide, by decide⟩

/-- C7 amended: the generic extractor returns at most 300 characters and
the clinical-features extractor at most 500; and each keyword search
returns, for the first position where the keyword is followed by at
least one colon/whitespace character, the text after the maximal
separator run up to the earliest position where its terminator matches —
for the generic extractor the terminator is one of the other keywords as
the exact tail of the text, the keyword adverse outcomes anywhere, or
the end of the text (not the next occurrence of any keyword); the
clinical-features extractor stops at the earliest occurrence of
investigations, treatment or complications, or the end. -/
theorem C7_amended_section_extraction (text ty : Str) :
    (extract_section_content text ty).length ≤ 300
    ∧ (extract_clinical_features text).length ≤ 500
    ∧ (∀ kw term, findKwCapture kw term text = findKwCaptureSpec kw term text) := by
  refine ⟨?_, ?_, fun kw term => findKwCapture_eq_spec kw term text⟩
  · unfold extract_section_content
    split
    · simp
    · split
      · simp only [pySlice, List.length_take]
        omega
      · simp
  · unfold extract_clinical_features
    split
    · simp only [pySlice, List.length_take]
      omega
    · simp

/-! ## Treatment-pattern extraction (medical_ocr_extractor.py)

The six treatment_patterns are scanned with re.finditer and
re.IGNORECASE.  Five share the shape literal + one-or-more
colon/whitespace + a capture of non-dot non-newline characters; the Drug
pattern captures a letter word with an optional dose tail.  The greedy
separator run combined with the capture class backtracks as the Python
engine does: when the character after the maximal separator run cannot
start the capture, the engine gives back separator characters one at a
time, which can only ever yield a single non-newline separator character
as the capture. -/

/-- MedicalTreatment dataclass (confidence-free record of treatments
table columns; the unused created_at timestamp is not modelled). -/
structure MedicalTreatment where
  condition_name : Str
  first_line : Str := []
  second_line : Str := []
  dosage : Str := []
  duration : Str := []
  page_number : Nat := 0
deriving DecidableEq, Repr

/-- Whether the character is matched by the capture class of the
first/second/alternative/dose/duration patterns: anything but a dot or a
newline. -/
def nonDotNL (c : Char) : Bool := !(c = '.' || c = '\n')

/-- Case-insensitive literal match returning the rest of the text. -/
def splitCiLit (pat : Str) (s : Str) : Option Str :=
  if ciStarts pat s then some (s.drop pat.length) else none

/-- Separator-then-capture for the non-dot capture patterns: maximal
colon/whitespace run, then the maximal run of non-dot non-newline
characters; when that run is empty the engine backtracks into the
separator run and the capture becomes its last non-newline character
(provided at least one separator character remains before it).  Returns
the capture group and the text after the whole match. -/
def sepGroup (after : Str) : Option (Str × Str) :=
  let s := after.takeWhile isSepChar
  if s = [] then none
  else
    let r := after.drop s.length
    let g0 := r.takeWhile nonDotNL
    if g0 ≠ [] then some (g0, r.drop g0.length)
    else
      let nl := s.reverse.takeWhile (fun c => c = '\n')
      match s.reverse.drop nl.length with
      | [] => none
      | c :: restRev =>
        if restRev = [] then none else some ([c], nl ++ r)

/-- Matcher of the first treatment pattern (First, dash or space, line,
separator, capture). -/
def tryFirstLine (s : Str) : Option (Str × Str) :=
  match splitCiLit "first".data s with
  | some (c :: r2) =>
    if c = '-' || c = ' ' then
      match splitCiLit "line".data r2 with
      | some r3 => sepGroup r3
      | none => none
    else none
  | _ => none

/-- Matcher of the second treatment pattern (Second, dash or space,
line, separator, capture). -/
def trySecondLine (s : Str) : Option (Str × Str) :=
  match splitCiLit "second".data s with
  | some (c :: r2) =>
    if c = '-' || c = ' ' then
      match splitCiLit "line".data r2 with
      | some r3 => sepGroup r3
      | none => none
    else none
  | _ => none

/-- Matcher of the Alternative pattern. -/
def tryAlternative (s : Str) : Option (Str × Str) :=
  match splitCiLit "alternative".data s with
  | some r1 => sepGroup r1
  | none => none

/-- Matcher of the Dose pattern. -/
def tryDose (s : Str) : Option (Str × Str) :=
  match splitCiLit "dose".data s with
  | some r1 => sepGroup r1
  | none => none

/-- Matcher of the Duration pattern. -/
def tryDuration (s : Str) : Option (Str × Str) :=
  match splitCiLit "duration".data s with
  | some r1 => sepGroup r1
  | none => none

/-- Optional dose tail of the Drug pattern: whitespace run, digit run,
optional whitespace, then mg case-insensitively; returns the matched
text and the rest. -/
def tryDoseTail (s : Str) : Option (Str × Str) :=
  let w1 := s.takeWhile isPySpace
  if w1 = [] then none
  else
    let r1 := s.drop w1.length
    let d := r1.takeWhile Char.isDigit
    if d = [] then none
    else
      let r2 := r1.drop d.length
      let w2 := r2.takeWhile isPySpace
      let r3 := r2.drop w2.length
      if ciStarts "mg".data r3 then
        some (w1 ++ d ++ w2 ++ r3.take 2, r3.drop 2)
      else none

/-- Matcher of the Drug pattern: with re.IGNORECASE the classes A-Z and
a-z both match any ASCII letter, so the capture is a letter followed by
at least one more letter (maximal run), with the optional dose tail.
Backtracking into the separator run cannot help because the capture must
start with a letter and separator characters are not letters. -/
def tryDrug (s : Str) : Option (Str × Str) :=
  match splitCiLit "drug".data s with
  | none => none
  | some r1 =>
    let sep := r1.takeWhile isSepChar
    if sep = [] then none
    else
      match r1.drop sep.length with
      | c0 :: r3 =>
        if c0.isAlpha then
          let ls := r3.takeWhile Char.isAlpha
          if ls = [] then none
          else
            let r4 := r3.drop ls.length
            match tryDoseTail r4 with
            | some (tail, r5) => some (c0 :: (ls ++ tail), r5)
            | none => some (c0 :: ls, r4)
        else none
      | [] => none

/-- Fuel-driven worker for finditer: try the matcher at every position
from left to right; on a match, emit the capture group and continue
after the match (advancing at least one character, as the Python engine
does after a zero-width match — though no pattern here can match without
consuming text).  One unit of fuel per consumed character suffices. -/
def finditerGo (tryAt : Str → Option (Str × Str)) : Nat → Str → List Str
  | 0, _ => []
  | _ + 1, [] => []
  | fuel + 1, s@(_ :: tail) =>
    match tryAt s with
    | some (g, rest) =>
      g :: finditerGo tryAt fuel (if rest.length < s.length then rest else tail)
    | none => finditerGo tryAt fuel tail

/-- re.finditer: all non-overlapping matches of the pattern over the
text, left to right, as their capture groups. -/
def finditer (tryAt : Str → Option (Str × Str)) (text : Str) : List Str :=
  finditerGo tryAt text.length text

/-- Kinds of the six treatment patterns, in list order. -/
inductive TreatKind
  | firstLineK | secondLineK | alternativeK | drugK | doseK | durationK
deriving DecidableEq, Repr

/-- treatment_patterns of MedicalOCRExtractor, each kind with its
matcher. -/
def treatment_patterns : List (TreatKind × (Str → Option (Str × Str))) :=
  [(.firstLineK, tryFirstLine), (.secondLineK, trySecondLine),
   (.alternativeK, tryAlternative), (.drugK, tryDrug),
   (.doseK, tryDose), (.durationK, tryDuration)]

/-- Field classification of `_extract_treatments_from_page`: the chain
of substring tests on the lowered pattern source puts first into
first_line, second and alternative into second_line, dose into dosage,
duration into duration, and everything else (the Drug pattern) into
first_line by default. -/
def classifyTreatment (k : TreatKind) (txt cond : Str) (page : Nat) :
    MedicalTreatment :=
  match k with
  | .firstLineK => { condition_name := cond, first_line := txt, page_number := page }
  | .secondLineK => { condition_name := cond, second_line := txt, page_number := page }
  | .alternativeK => { condition_name := cond, second_line := txt, page_number := page }
  | .doseK => { condition_name := cond, dosage := txt, page_number := page }
  | .durationK => { condition_name := cond, duration := txt, page_number := page }
  | .drugK => { condition_name := cond, first_line := txt, page_number := page }

/-- MedicalOCRExtractor._extract_treatments_from_page: for each pattern
in order, every finditer match whose stripped capture is longer than 5
characters becomes a treatment record tagged with the given condition
name, with the single field selected by the pattern kind. -/
def extract_treatments_from_page (text condition_name : Str) (page_num : Nat) :
    List MedicalTreatment :=
  treatment_patterns.flatMap fun kp =>
    (finditer kp.2 text).filterMap fun g =>
      let t := pyStrip g
      if 5 < t.length then some (classifyTreatment kp.1 t condition_name page_num)
      else none

/-- C6 counterexample: the page text "Treatment: Artesunate 2.4mg/kg IV"
matches none of the six configured treatment markers (First-line,
Second-line, Alternative, Drug, Dose, Duration), so the extraction step
emits no record at all — in particular not the claimed record. -/
theorem C6_counterexample :
    extract_treatments_from_page "Treatment: Artesunate 2.4mg/kg IV".data
        "Severe Malaria".data 45 = []
    ∧ ¬ ∃ t ∈ extract_treatments_from_page
          "Treatment: Artesunate 2.4mg/kg IV".data "Severe Malaria".data 45,
        t.condition_name = "Severe Malaria".data
        ∧ t.first_line = "Artesunate 2.4mg/kg IV".data := by
  have h : extract_treatments_from_page "Treatment: Artesunate 2.4mg/kg IV".data
      "Severe Malaria".data 45 = [] := by decide
  refine ⟨h, ?_⟩
  rintro ⟨t, ht, -⟩
  rw [h] at ht
  exact absurd ht (List.not_mem_nil t)

/-- C6 amended: the literal "Treatment:" is not a configured marker and
emits nothing; with the configured marker spelling "First-line:
Artesunate 2.4mg/kg IV" and current condition "Severe Malaria", exactly
one Treatment is emitted, tagged condition_name = "Severe Malaria", with
first_line = "Artesunate 2" — the capture class excludes the dot, so it
stops before ".4mg/kg IV". -/
theorem C6_amended_marker_behaviour :
    extract_treatments_from_page "First-line: Artesunate 2.4mg/kg IV".data
        "Severe Malaria".data 45
      = [{ condition_name := "Severe Malaria".data,
           first_line := "Artesunate 2".data,
           page_number := 45 }]
    ∧ extract_treatments_from_page "Treatment: Artesunate 2.4mg/kg IV".data
        "Severe Malaria".data 45 = [] :=
  ⟨by decide, by decide⟩

/-- C10: every record emitted by the treatment-pattern extraction has
exactly one non-empty field among first_line, second_line, dosage and
duration, and that field holds the stripped capture, which is strictly
longer than 5 characters. -/
theorem C10_single_field (text cond : Str) (page : Nat)
    (t : MedicalTreatment)
    (ht : t ∈ extract_treatments_from_page text cond page) :
    ([t.first_line, t.second_line, t.dosage, t.duration].filter
        (fun f => f ≠ [])).length = 1
    ∧ ∀ f ∈ [t.first_line, t.second_line, t.dosage, t.duration],
        f ≠ [] → 5 < f.length := by
  simp only [extract_treatments_from_page, List.mem_flatMap,
    List.mem_filterMap] at ht
  obtain ⟨kp, hkp, g, hg, hsome⟩ := ht
  by_cases hlen : 5 < (pyStrip g).length
  · rw [if_pos hlen] at hsome
    have ht' : t = classifyTreatment kp.1 (pyStrip g) cond page := by
      injection hsome with h
      exact h.symm
    subst ht'
    have hne : pyStrip g ≠ [] := by
      intro h
      rw [h] at hlen
      simp at hlen
    rcases kp with ⟨k, f⟩
    cases k <;> simp [classifyTreatment, hne, hlen]
  · rw [if_neg hlen] at hsome
    exact absurd hsome (by simp)

/-- C10 witness: the record extracted from "First-line: Amoxicillin" has
exactly its first_line populated, with 11 characters. -/
theorem C10_single_field_witness :
    (["Amoxicillin".data, ([] : Str), [], []].filter
        (fun f => f ≠ [])).length = 1
    ∧ ∀ f ∈ ["Amoxicillin".data, ([] : Str), [], []],
        f ≠ [] → 5 < f.length :=
  C10_single_field "First-line: Amoxicillin".data "X".data 1
    { condition_name := "X".data, first_line := "Amoxicillin".data,
      page_number := 1 }
    (by decide)

/-! ## Condition extraction and the sequential page scan
(medical_ocr_extractor.py)

The five condition_patterns are all anchored at the start of the line
and searched case-sensitively; each matcher below reproduces the
backtracking order of the Python engine.  Medication extraction is not
modelled: no claim depends on it and it does not interact with the
condition/treatment state of the scan. -/

/-- MedicalCondition dataclass (the never-assigned float confidence
field is not modelled). -/
structure MedicalCondition where
  name : Str
  icd_code : Str := []
  clinical_features : Str := []
  investigations : Str := []
  treatment : Str := []
  page_number : Nat := 0
deriving DecidableEq, Repr

/-- Search for a literal followed immediately by at least one digit
(the Chapter/Page skip patterns). -/
def searchLitDigit (lit : Str) : Str → Bool
  | [] => false
  | s@(_ :: rest) =>
    (litStarts lit s && ((s.drop lit.length).headD ' ').isDigit)
    || searchLitDigit lit rest

/-- Search for four consecutive digits anywhere (the bare-year skip
pattern has no word boundaries). -/
def has4Digits : Str → Bool
  | c1 :: rest =>
    (match rest with
     | c2 :: c3 :: c4 :: _ =>
       c1.isDigit && c2.isDigit && c3.isDigit && c4.isDigit
     | _ => false)
    || has4Digits rest
  | [] => false

/-- skip_patterns of MedicalOCRExtractor, each applied with re.search:
literal substrings, Chapter/Page followed by a number, or four
consecutive digits. -/
def skip_patterns_match (line : Str) : Bool :=
  containsLit "Department of".data line
  || containsLit "Ministry of".data line
  || containsLit "University of".data line
  || containsLit "World Health".data line
  || containsLit "Ghana National".data line
  || containsLit "Table of Contents".data line
  || searchLitDigit "Chapter ".data line
  || searchLitDigit "Page ".data line
  || has4Digits line

/-- Character class of the lazy name group of the ICD-coded pattern:
letters, whitespace or hyphen. -/
def isP1Class (c : Char) : Bool := c.isAlpha || isPySpace c || c = '-'

/-- ICD code group: capital, two digits, optionally a dot and more
digits (taken greedily), followed by the closing parenthesis.  When the
dot variant fails the empty option needs the parenthesis at the dot,
which is impossible, so the match fails. -/
def p1Code : Str → Option Str
  | c :: d1 :: d2 :: rest =>
    if c.isUpper && d1.isDigit && d2.isDigit then
      match rest with
      | '.' :: rest2 =>
        let ds := rest2.takeWhile Char.isDigit
        if ds ≠ [] && (rest2.drop ds.length).headD ' ' = ')' then
          some (c :: d1 :: d2 :: '.' :: ds)
        else none
      | ')' :: _ => some [c, d1, d2]
      | _ => none
    else none
  | _ => none

/-- Inside the parentheses: the greedy optional ICD label (with its
colon/whitespace/hyphen run) is tried first, then the bare code. -/
def p1AfterParen (r : Str) : Option Str :=
  if litStarts "ICD".data r then
    match p1Code ((r.drop 3).dropWhile (fun c => c = ':' || isPySpace c || c = '-')) with
    | some code => some code
    | none => p1Code r
  else p1Code r

/-- Tail of the ICD-coded pattern after the lazy name group: optional
whitespace, an opening parenthesis, then the code. -/
def p1Tail (s : Str) : Option Str :=
  match s.dropWhile isPySpace with
  | '(' :: r2 => p1AfterParen r2
  | _ => none

/-- Lazy growth of the name group: consume one class character at a time
(at least one beyond the leading capital) and stop at the first point
where the tail matches. -/
def p1Go (acc : Str) : Str → Option (Str × Str)
  | [] => none
  | c :: rest =>
    if isP1Class c then
      match p1Tail rest with
      | some code => some (acc ++ [c], code)
      | none => p1Go (acc ++ [c]) rest
    else none

/-- First condition pattern: name with an ICD code in parentheses,
anchored at the start of the line.  Returns name and code groups. -/
def p1Match : Str → Option (Str × Str)
  | c0 :: rest => if c0.isUpper then p1Go [c0] rest else none
  | [] => none

/-- Acuity keywords of the second condition pattern, in alternation
order. -/
def p2Keywords : List Str :=
  ["Acute".data, "Chronic".data, "Severe".data, "Mild".data,
   "Primary".data, "Secondary".data]

/-- Second condition pattern: an acuity keyword, whitespace, then
letters and whitespace to the end of the line; the group is the whole
line. -/
def p2Match (line : Str) : Option Str :=
  match p2Keywords.findSome? (fun kw =>
      if litStarts kw line then some kw else none) with
  | some kw =>
    match line.drop kw.length with
    | c :: _ :: _ =>
      if isPySpace c
          && (line.drop kw.length).all (fun d => d.isAlpha || isPySpace d) then
        some line
      else none
    | _ => none
  | none => none

/-- Disease-morphology endings of the third condition pattern, in
alternation order. -/
def diseaseSuffixes : List Str :=
  ["itis".data, "osis".data, "emia".data, "pathy".data,
   "trophy".data, "plasia".data, "oma".data]

/-- Greedy backtracking of the third pattern: the lowercase run is
consumed maximally and given back one character at a time until one of
the endings matches (the endings are lowercase, so they cannot extend
past the run). -/
def p3Back (c0 : Char) (run : Str) : Nat → Option Str
  | 0 => none
  | k + 1 =>
    match diseaseSuffixes.findSome? (fun suf =>
        if litStarts suf (run.drop (k + 1)) then some suf else none) with
    | some suf => some (c0 :: (run.take (k + 1) ++ suf))
    | none => p3Back c0 run k

/-- Third condition pattern: a capitalized word with a disease-morphology
ending, anchored at the start of the line. -/
def p3Match : Str → Option Str
  | c0 :: rest =>
    if c0.isUpper then
      let run := rest.takeWhile Char.isLower
      p3Back c0 run run.length
    else none
  | [] => none

/-- A capitalized lowercase word, whitespace, then one of the given
literal words; the shared shape of the fourth and fifth condition
patterns. -/
def wordAfterRun (words : List Str) : Str → Option Str
  | c0 :: rest =>
    if c0.isUpper then
      let run := rest.takeWhile Char.isLower
      if run = [] then none
      else
        let r2 := rest.drop run.length
        let ws := r2.takeWhile isPySpace
        if ws = [] then none
        else
          match words.findSome? (fun w =>
              if litStarts w (r2.drop ws.length) then some w else none) with
          | some w => some (c0 :: (run ++ ws ++ w))
          | none => none
    else none
  | [] => none

/-- Fourth condition pattern: infection/disease/syndrome/disorder
phrasing. -/
def p4Match (line : Str) : Option Str :=
  wordAfterRun ["infection".data, "disease".data, "syndrome".data,
    "disorder".data] line

/-- Fifth condition pattern: symptom phrasing; the optional second r of
diarr?hoea expands to the two literals in greedy order. -/
def p5Match (line : Str) : Option Str :=
  wordAfterRun ["pain".data, "fever".data, "cough".data,
    "diarrhoea".data, "diarhoea".data] line

/-- condition_patterns of MedicalOCRExtractor in order; each returns the
name group and the ICD group (set only by the first pattern, which is
the only one with two groups). -/
def condition_patterns : List (Str → Option (Str × Str)) :=
  [fun l => p1Match l,
   fun l => (p2Match l).map (fun g => (g, [])),
   fun l => (p3Match l).map (fun g => (g, [])),
   fun l => (p4Match l).map (fun g => (g, [])),
   fun l => (p5Match l).map (fun g => (g, []))]

/-- Institutional keywords rejected by the condition validator. -/
def institutionalWords : List Str :=
  ["Department".data, "Ministry".data, "University".data,
   "Ghana".data, "WHO".data]

/-- medical_indicators of `_is_valid_medical_condition`, in order. -/
def medicalIndicators : List Str :=
  ["infection".data, "disease".data, "syndrome".data, "disorder".data,
   "pain".data, "fever".data, "itis".data, "osis".data, "emia".data,
   "pathy".data, "trophy".data, "plasia".data, "oma".data, "acute".data,
   "chronic".data, "severe".data, "mild".data, "primary".data,
   "secondary".data, "malaria".data, "pneumonia".data, "diarrhea".data,
   "hypertension".data, "diabetes".data]

/-- Python regex word character (ASCII): letter, digit or underscore. -/
def isWordChar (c : Char) : Bool := c.isAlphanum || c = '_'

/-- Worker for the bare-year check: four consecutive digits delimited by
word boundaries; prev is the character before the current suffix. -/
def has4DigitWordGo (prev : Option Char) : Str → Bool
  | c1 :: rest1 =>
    (match rest1 with
     | c2 :: c3 :: c4 :: rest4 =>
       c1.isDigit && c2.isDigit && c3.isDigit && c4.isDigit
       && (match prev with | none => true | some p => !isWordChar p)
       && (match rest4 with | [] => true | c5 :: _ => !isWordChar c5)
     | _ => false)
    || has4DigitWordGo (some c1) rest1
  | [] => false

/-- re.search of the bare-year pattern: a four-digit run delimited by
word boundaries. -/
def has4DigitWord (s : Str) : Bool := has4DigitWordGo none s

/-- Worker for Python str.split() word counting: count maximal
non-whitespace runs. -/
def countWordsGo : Bool → Str → Nat
  | _, [] => 0
  | inWord, c :: rest =>
    if isPySpace c then countWordsGo false rest
    else (if inWord then 0 else 1) + countWordsGo true rest

/-- len of Python name.split(): the number of whitespace-separated
words. -/
def countWords (s : Str) : Nat := countWordsGo false s

/-- MedicalOCRExtractor._is_valid_medical_condition: length 5 to 60, no
institutional keyword substring, no leading digit, no bare four-digit
year, then accepted when it contains a medical indicator (lowercased) or
is capitalized with at most 4 words. -/
def is_valid_medical_condition (name : Str) : Bool :=
  if name.length < 5 || 60 < name.length then false
  else if institutionalWords.any (fun w => containsLit w name) then false
  else if (match name with | c :: _ => c.isDigit | [] => false) then false
  else if has4DigitWord name then false
  else if medicalIndicators.any
      (fun w => containsLit w (name.map Char.toLower)) then true
  else if (match name with | c :: _ => c.isUpper | [] => false)
      && countWords name ≤ 4 then true
  else false

/-- Pattern loop of `_extract_conditions_from_page` for one line: the
first pattern whose match yields a validator-accepted stripped name wins
(a validator rejection falls through to the next pattern); returns the
accepted name and the ICD group. -/
def matchConditionLine (line : Str) : Option (Str × Str) :=
  condition_patterns.findSome? fun pat =>
    match pat line with
    | some (g1, icd) =>
      let nm := pyStrip g1
      if is_valid_medical_condition nm then some (nm, icd) else none
    | none => none

/-- MedicalOCRExtractor._extract_conditions_from_page: split the page
text into lines, strip each, keep lines of length 5 to 100 that match no
skip pattern, and emit a condition for each line with an accepted
pattern match; section fields are filled from the whole page text. -/
def extract_conditions_from_page (text : Str) (page_num : Nat) :
    List MedicalCondition :=
  (text.splitOn '\n').filterMap fun rawLine =>
    let line := pyStrip rawLine
    if line.length < 5 || 100 < line.length then none
    else if skip_patterns_match line then none
    else
      match matchConditionLine line with
      | some (nm, icd) =>
        some { name := nm, icd_code := icd,
               clinical_features := extract_clinical_features text,
               investigations := extract_section_content text "investigations".data,
               treatment := extract_section_content text "treatment".data,
               page_number := page_num }
      | none => none

/-- One page of input to the scan (the ordered page texts are supplied
by the out-of-scope PDF reader). -/
structure PageInput where
  page_number : Nat
  text : Str

/-- Accumulated state of extract_medical_content, with the single
current-condition slot carried across pages. -/
structure ScanState where
  conditions : List MedicalCondition
  treatments : List MedicalTreatment
  current_condition : Option MedicalCondition

/-- One iteration of the page loop of extract_medical_content: extract
conditions, refresh the current condition to the last one found (if
any), and extract treatments only when a current condition exists. -/
def scanPage (st : ScanState) (p : PageInput) : ScanState :=
  let page_conditions := extract_conditions_from_page p.text p.page_number
  let current := match page_conditions.getLast? with
    | some c => some c
    | none => st.current_condition
  let page_treatments := match current with
    | some c => extract_treatments_from_page p.text c.name p.page_number
    | none => []
  { conditions := st.conditions ++ page_conditions,
    treatments := st.treatments ++ page_treatments,
    current_condition := current }

/-- MedicalOCRExtractor.extract_medical_content restricted to its
condition/treatment accumulation over the supplied page sequence. -/
def extract_medical_content (pages : List PageInput) : ScanState :=
  pages.foldl scanPage ⟨[], [], none⟩

/-- Modelled per the amended claim: the per-page treatment emission rule
threaded with an explicit current-condition-name context — each page
first refreshes the context to the name of its last extracted condition,
then emits that page's treatment records only when a context exists, and
emits nothing on pages scanned before any condition has been seen. -/
def treatmentsSpecGo (cur : Option Str) : List PageInput → List MedicalTreatment
  | [] => []
  | p :: ps =>
    let cur' := match (extract_conditions_from_page p.text p.page_number).getLast? with
      | some c => some c.name
      | none => cur
    (match cur' with
     | some nm => extract_treatments_from_page p.text nm p.page_number
     | none => []) ++ treatmentsSpecGo cur' ps

/-- The scan fold emits exactly the treatments of the per-page rule,
relative to any starting state. -/
lemma scan_treatments_eq :
    ∀ (pages : List PageInput) (st : ScanState),
      (pages.foldl scanPage st).treatments
        = st.treatments
          ++ treatmentsSpecGo (st.current_condition.map (·.name)) pages
  | [], st => by simp [treatmentsSpecGo]
  | p :: ps, st => by
    rw [List.foldl_cons, scan_treatments_eq ps]
    cases hgl : (extract_conditions_from_page p.text p.page_number).getLast? with
    | some c =>
      simp only [scanPage, hgl, treatmentsSpecGo, Option.map_some']
      simp [List.append_assoc]
    | none =>
      simp only [scanPage, hgl, treatmentsSpecGo]
      cases hc : st.current_condition <;> simp [hc, List.append_assoc]

/-- C5 counterexample: the single page
"First-line: Amoxicillin 500mg for ten days" contains a treatment-marker
match (shown by the non-empty second component), but since no condition
has been seen the scan emits no Treatment record at all — instead of the
claimed record with an empty condition name. -/
theorem C5_counterexample :
    (extract_medical_content
        [⟨31, "First-line: Amoxicillin 500mg for ten days".data⟩]).treatments = []
    ∧ extract_treatments_from_page
        "First-line: Amoxicillin 500mg for ten days".data [] 31 ≠ [] :=
  ⟨by decide, by decide⟩

/-- C5 amended: the treatments accumulated by the sequential scan are
exactly those of the per-page rule: each page refreshes the
current-condition context to its last extracted condition, pages with a
context emit that page's pattern matches tagged with the context
condition name, and pages scanned before any condition has been seen
emit no Treatment records at all. -/
theorem C5_amended_context_tagging (pages : List PageInput) :
    (extract_medical_content pages).treatments = treatmentsSpecGo none pages := by
  have h := scan_treatments_eq pages ⟨[], [], none⟩
  simpa [extract_medical_content] using h

end ClinicalAide
